import Mathlib

/-!
Shallow embedding of the temporal-consistency validation engine of the
mlcast-dataset-validator repository (module
mlcast_dataset_validator/checks/coords/temporal.py), together with proofs
settling the frozen claims about it.

Timestamps (numpy datetime64[ns]) are embedded as integer nanosecond ticks
(Int).  Timedeltas are likewise Int nanoseconds.  A validation report is a
list of records.  Fallible operations (attribute parsing, coverage
analysis on an empty coordinate) are embedded with Option / Except.
-/

/-- Outcome status of one validation record. -/
inductive Status where
  | PASS
  | FAIL
  | WARNING
deriving DecidableEq, Repr

/-- Modelled from the spec: one entry of a ValidationReport (the class lives in
specs/base.py, which is absent from the sources): a record carries a section
identifier, a rule name, a status and free-text detail. -/
structure Record where
  section_id : String
  rule : String
  status : Status
  detail : String
deriving DecidableEq, Repr

/-- Modelled from the spec: a ValidationReport is an ordered accumulator of
records; report merge (the + operator) is concatenation preserving order. -/
abbrev Report := List Record

/-- Modelled from the spec: ValidationReport.has_fails, true when some record
has status FAIL. -/
def hasFails (r : Report) : Bool :=
  r.any (fun rec => rec.status == Status.FAIL)

/-- Modelled from the spec: ValidationReport.has_warnings, true when some
record has status WARNING. -/
def hasWarnings (r : Report) : Bool :=
  r.any (fun rec => rec.status == Status.WARNING)

/-- Modelled from the spec: the section identifier of the temporal checks;
its parent prefix comes from the coords package initializer (absent from the
sources).  Its exact text affects no claim. -/
def SECTION_ID : String := "coords.3"

/-- Consecutive differences of a list of instants
(numpy diff along the time dimension). -/
def diffs : List Int → List Int
  | a :: b :: rest => (b - a) :: diffs (b :: rest)
  | _ => []

/-- The monotonicity test of the orchestrator:
np.all(diff > 0), i.e. every consecutive difference is positive. -/
def strictlyIncreasing (t : List Int) : Bool :=
  (diffs t).all (fun d => decide (0 < d))

/-- np.all(d[1:] <= d[:-1]): consecutive values never grow when read
forward.  Vacuously true on lists of length below 2. -/
def nonIncreasing : List Int → Bool
  | a :: b :: rest => decide (b ≤ a) && nonIncreasing (b :: rest)
  | _ => true

/-- Minimum of a list (ndarray.min); 0 on the empty list, on which the
source never calls it. -/
def listMin : List Int → Int
  | [] => 0
  | a :: rest => rest.foldl min a

/-- pd.date_range(start, stop, freq=step) on nanosecond ticks: the
instants start, start+step, ... not exceeding stop.  Empty when the step is
not positive or stop is below start (the source only ever calls it with a
positive step and start less than or equal to stop). -/
def gridRange (start stop step : Int) : List Int :=
  if 0 < step ∧ start ≤ stop then
    (List.range (((stop - start) / step).toNat + 1)).map
      (fun k => start + step * (k : Int))
  else []

/-- Embedding of the missing_times variable: a flag recording whether its
dtype is datetime64 and, when it is, its values as nanosecond ticks. -/
structure MissingVar where
  isDatetime : Bool
  values : List Int
deriving DecidableEq, Repr

/-- Embedding of an xarray Dataset as consumed by the temporal checks:
presence of the time coordinate, its values, the optional missing_times
variable, and the optional consistent_timestep_start attribute.  For the
attribute, none means absent; some none means present but not parseable by
pd.to_datetime; some (some s) means present and parsing to instant s. -/
structure Dataset where
  hasTimeCoord : Bool
  times : List Int
  missing_times : Option MissingVar
  consistent_timestep_start : Option (Option Int)
deriving DecidableEq, Repr

/-- The cutover split of the time coordinate:
sel(time=slice(None, start - 1ns)) and sel(time=slice(start, None)) on a
sorted coordinate, i.e. the values below the cutover and those at or after
it; no split when no cutover is given. -/
def splitTimes (t : List Int) (cut : Option Int) : Option (List Int) × List Int :=
  match cut with
  | none => (none, t)
  | some s => (some (t.filter (fun x => decide (x < s))),
               t.filter (fun x => decide (s ≤ x)))

/-- Embedding of _check_missing_times_irregular_period: checks the
irregular-prefix segment, warning when its steps are not monotonically
non-increasing and the declared missing values do not resolve the gaps. -/
def _check_missing_times_irregular_period
    (da_time_coord : Option (List Int)) (missing_values : Option (List Int)) :
    Report :=
  match da_time_coord with
  | none => []
  | some t =>
    if t.length < 2 then []
    else
      let d := diffs t
      if d.length < 2 then []
      else if nonIncreasing d then []
      else
        match missing_values with
        | none =>
          [⟨SECTION_ID, "Missing times metadata", Status.FAIL,
            "Missing \x27missing_times\x27 variable for irregular period"⟩]
        | some mv =>
          let pre_interval := listMin d
          let expected_pre := gridRange (t.headD 0) (t.getLastD 0) pre_interval
          let missing_pre := expected_pre.filter (fun x => decide (x ∉ t))
          let lo := expected_pre.headD 0
          let hi := expected_pre.getLastD 0
          let missing_pre_range := mv.filter (fun x => decide (lo ≤ x ∧ x ≤ hi))
          if missing_pre ≠ [] ∧ missing_pre_range = [] then
            [⟨SECTION_ID, "Missing times metadata", Status.WARNING,
              "Irregular timesteps do not monotonically decrease and missing_times are not provided to resolve them"⟩]
          else []

/-- Embedding of _check_missing_times_regular_period: reconciles inferred
gaps of the regular segment against the declared missing values. -/
def _check_missing_times_regular_period
    (da_time_coord : List Int) (missing_values : Option (List Int)) : Report :=
  if da_time_coord.length < 2 then
    [⟨SECTION_ID, "Missing times metadata", Status.WARNING,
      "Not enough regular timestamps to infer missing times"⟩]
  else
    let d := diffs da_time_coord
    if d.length = 0 then
      [⟨SECTION_ID, "Missing times metadata", Status.WARNING,
        "Unable to infer timestep from regular timestamps"⟩]
    else
      match missing_values with
      | none =>
        if 1 < d.dedup.length then
          [⟨SECTION_ID, "Missing times metadata", Status.FAIL,
            "Missing \x27missing_times\x27 variable for regular period"⟩]
        else []
      | some mv =>
        let expected_interval := listMin d
        let expected_values :=
          gridRange (da_time_coord.headD 0) (da_time_coord.getLastD 0)
            expected_interval
        let missing_inferred :=
          expected_values.filter (fun x => decide (x ∉ da_time_coord))
        if missing_inferred = [] then
          [⟨SECTION_ID, "Missing times metadata", Status.PASS,
            "No missing timestamps inferred in the regular period"⟩]
        else
          let missing_unlisted := missing_inferred.filter (fun x => decide (x ∉ mv))
          if missing_unlisted ≠ [] then
            [⟨SECTION_ID, "Missing times metadata", Status.FAIL,
              "Inferred missing timestamps are not listed in \x27missing_times\x27: "
                ++ toString missing_unlisted
                ++ ". Define these in \x27missing_times\x27 if the data is actually missing."⟩]
          else
            [⟨SECTION_ID, "Missing times metadata", Status.PASS,
              "All inferred missing timestamps are listed in \x27missing_times\x27"⟩]

/-- The body of _check_missing_times_metadata after the cutover attribute
has been resolved to cut (none when no split applies): type and
disjointness checks of missing_times, the per-segment checks, and the
trailing not-required PASS when the variable is absent and nothing failed. -/
def metadataWithCutover (ds : Dataset) (da_time_coord : List Int)
    (cut : Option Int) : Report :=
  let split := splitTimes da_time_coord cut
  let da_time_irregular := split.1
  let da_time_regular := split.2
  match ds.missing_times with
  | none =>
    let rep :=
      (match da_time_irregular with
       | none => []
       | some ti => _check_missing_times_irregular_period (some ti) none)
      ++ _check_missing_times_regular_period da_time_regular none
    if hasFails rep then rep
    else rep ++ [⟨SECTION_ID, "Missing times metadata", Status.PASS,
      "Regular timesteps detected; \x27missing_times\x27 not required"⟩]
  | some mvar =>
    if mvar.isDatetime = false then
      [⟨SECTION_ID, "Missing times metadata", Status.FAIL,
        "\x27missing_times\x27 must contain datetime64 values"⟩]
    else
      let missing_values := mvar.values
      if da_time_coord.any (fun x => decide (x ∈ missing_values)) then
        [⟨SECTION_ID, "Missing times metadata", Status.FAIL,
          "\x27missing_times\x27 values must not appear in the main time coordinate"⟩]
      else
        let msplit : Option (List Int) × List Int :=
          match cut with
          | none => (none, missing_values)
          | some s => (some (missing_values.filter (fun x => decide (x < s))),
                       missing_values.filter (fun x => decide (s ≤ x)))
        (match da_time_irregular with
         | none => []
         | some ti => _check_missing_times_irregular_period (some ti) msplit.1)
        ++ _check_missing_times_regular_period da_time_regular (some msplit.2)

/-- Embedding of _check_missing_times_metadata: resolves the
consistent_timestep_start attribute (honored only when the policy allows
variable timesteps; a parse failure is a FAIL that stops the check) and
delegates to the split body. -/
def _check_missing_times_metadata (ds : Dataset) (da_time_coord : List Int)
    (allow_variable_timestep : Bool) : Report :=
  if allow_variable_timestep then
    match ds.consistent_timestep_start with
    | none => metadataWithCutover ds da_time_coord none
    | some none =>
      [⟨SECTION_ID, "Missing times metadata", Status.FAIL,
        "Failed to parse \x27consistent_timestep_start\x27"⟩]
    | some (some s) => metadataWithCutover ds da_time_coord (some s)
  else metadataWithCutover ds da_time_coord none

/-- Nanoseconds per day. -/
def nsPerDay : Int := 86400000000000

/-- The temporal coverage analysis of the orchestrator: pandas Timedelta
days between the first and last instants divided by 365.25.  On an empty
coordinate the indexing raises, which the source catches; embedded as an
error value carrying the exception text. -/
def coverageYears (t : List Int) : Except String ℚ :=
  if t.isEmpty then
    Except.error "index -1 is out of bounds for axis 0 with size 0"
  else
    Except.ok ((((t.getLastD 0 - t.headD 0).fdiv nsPerDay : Int) : ℚ) / (365.25 : ℚ))

/-- Embedding of check_temporal_requirements: coordinate presence,
monotonicity, coverage duration, then the missing-times metadata checks. -/
def check_temporal_requirements (ds : Dataset) (min_years : Int)
    (allow_variable_timestep : Bool) : Report :=
  if ds.hasTimeCoord = false then
    [⟨SECTION_ID, "Time coordinate presence", Status.FAIL,
      "Missing \x27time\x27 coordinate"⟩]
  else if 2 ≤ ds.times.length ∧ strictlyIncreasing ds.times = false then
    [⟨SECTION_ID, "Time coordinate ordering", Status.FAIL,
      "Time coordinate must be strictly increasing"⟩]
  else
    match coverageYears ds.times with
    | Except.error e =>
      [⟨SECTION_ID, "Temporal coverage analysis", Status.FAIL,
        "Failed to analyze temporal coverage: " ++ e⟩]
    | Except.ok years =>
      let cov : Record :=
        if (min_years : ℚ) ≤ years then
          ⟨SECTION_ID, "Minimum 3-year coverage", Status.PASS,
            "Temporal coverage: " ++ toString years ++ " years (at least "
              ++ toString min_years ++ " years)"⟩
        else
          ⟨SECTION_ID, "Minimum 3-year coverage", Status.FAIL,
            "Temporal coverage: " ++ toString years ++ " years (below "
              ++ toString min_years ++ " years required)"⟩
      cov :: _check_missing_times_metadata ds ds.times allow_variable_timestep

/-- Body of analyze_dataset_timesteps without the cache: below 2 instants
the result is (false, 0); otherwise non-positive differences are dropped,
the distinct remaining values counted, and variability means that count
exceeds 1. -/
def analyzeTimestepsUncached (times : List Int) : Bool × Nat :=
  if times.length < 2 then (false, 0)
  else
    let d := (diffs times).filter (fun x => decide (0 < x))
    let c := d.dedup.length
    (decide (1 < c), c)

/-- Embedding of a dataset object as a cache key: a stable identity and a
flag recording whether it can serve as a key of the weak-key dictionary
(a TypeError from an unusable key is caught and caching is skipped). -/
structure DsObj where
  id : Nat
  hashable : Bool
  times : List Int
deriving DecidableEq, Repr

/-- The process-wide _TIMESTEP_CACHE, embedded as an association list from
dataset identity to the memoized result. -/
abbrev TimestepCache := List (Nat × (Bool × Nat))

/-- Cache lookup; the TypeError raised for an unusable key (caught in the
source, leaving cached = None) is embedded as a none result. -/
def cacheGet (c : TimestepCache) (ds : DsObj) : Option (Bool × Nat) :=
  if ds.hashable then (c.find? (fun p => p.1 == ds.id)).map (fun p => p.2)
  else none

/-- Cache store; the TypeError for an unusable key is caught in the source
and the store skipped, embedded as returning the cache unchanged. -/
def cachePut (c : TimestepCache) (ds : DsObj) (r : Bool × Nat) : TimestepCache :=
  if ds.hashable then (ds.id, r) :: c else c

/-- Embedding of analyze_dataset_timesteps with its memoization, in
explicit state-passing style: takes and returns the cache.  The final Bool
component instruments which branch ran: false when the cached tuple was
returned, true when the result was recomputed. -/
def analyze_dataset_timesteps (c : TimestepCache) (ds : DsObj) :
    (Bool × Nat) × TimestepCache × Bool :=
  match cacheGet c ds with
  | some r => (r, c, false)
  | none =>
    let r := analyzeTimestepsUncached ds.times
    (r, cachePut c ds r, true)

/-- Spec-side count of distinct positive consecutive intervals of a time
series, phrased through Finset cardinality. -/
def distinctPositiveIntervalCount (t : List Int) : Nat :=
  ((diffs t).filter (fun d => decide (0 < d))).toFinset.card

/-- Spec-side expected grid of a segment: stepping from its first to its
last instant at its minimum observed interval. -/
def gridOf (seg : List Int) : List Int :=
  gridRange (seg.headD 0) (seg.getLastD 0) (listMin (diffs seg))

/-- Spec-side inferred missing instants of a segment: the expected grid
minus the actual instants. -/
def missingInferred (seg : List Int) : List Int :=
  (gridOf seg).filter (fun x => decide (x ∉ seg))

/-- Spec-side coverage in years: elapsed whole days between the first and
last instants divided by 365.25. -/
def coverageYearsOf (t : List Int) : ℚ :=
  (((t.getLastD 0 - t.headD 0).fdiv nsPerDay : Int) : ℚ) / (365.25 : ℚ)

example : diffs [0, 1, 3, 4] = [1, 2, 1] := by decide
example : gridRange 0 4 1 = [0, 1, 2, 3, 4] := by decide
example : gridRange 0 4 3 = [0, 3] := by decide
example : missingInferred [0, 1, 3, 4] = [2] := by decide
example : nonIncreasing [4, 2, 1] = true := by decide
example : nonIncreasing [1, 2, 1] = false := by decide

/-! ## Helper lemmas -/

theorem diffs_length : ∀ t : List Int, (diffs t).length = t.length - 1
  | [] => rfl
  | [_] => rfl
  | _ :: b :: rest => by
    have ih := diffs_length (b :: rest)
    simp only [diffs, List.length_cons] at ih ⊢
    omega

theorem strictlyIncreasing_pos {t : List Int} (h : strictlyIncreasing t = true) :
    ∀ d ∈ diffs t, 0 < d := by
  simpa [strictlyIncreasing, List.all_eq_true] using h

theorem nonIncreasing_of_short {l : List Int} (h : l.length < 2) :
    nonIncreasing l = true := by
  match l with
  | [] => rfl
  | [_] => rfl
  | _ :: _ :: _ => simp only [List.length_cons] at h; omega

theorem length_le_of_nonIncreasing_false {l : List Int}
    (h : nonIncreasing l = false) : 2 ≤ l.length := by
  by_contra hlt
  rw [nonIncreasing_of_short (by omega)] at h
  exact absurd h (by decide)

theorem hasFails_append (a b : Report) :
    hasFails (a ++ b) = (hasFails a || hasFails b) := by
  simp [hasFails]

theorem regular_period_short (seg : List Int) (mv : Option (List Int))
    (h : seg.length < 2) :
    _check_missing_times_regular_period seg mv =
      [⟨SECTION_ID, "Missing times metadata", Status.WARNING,
        "Not enough regular timestamps to infer missing times"⟩] := by
  unfold _check_missing_times_regular_period
  rw [if_pos h]

theorem regular_period_none (seg : List Int) (h : 2 ≤ seg.length) :
    _check_missing_times_regular_period seg none =
      (if 1 < (diffs seg).dedup.length then
        [⟨SECTION_ID, "Missing times metadata", Status.FAIL,
          "Missing \x27missing_times\x27 variable for regular period"⟩]
       else []) := by
  have h1 : ¬ seg.length < 2 := by omega
  have h2 : ¬ (diffs seg).length = 0 := by rw [diffs_length]; omega
  simp only [_check_missing_times_regular_period, if_neg h1, if_neg h2]

theorem regular_period_some (seg M : List Int) (h : 2 ≤ seg.length) :
    _check_missing_times_regular_period seg (some M) =
      (if missingInferred seg = [] then
        [⟨SECTION_ID, "Missing times metadata", Status.PASS,
          "No missing timestamps inferred in the regular period"⟩]
       else if (missingInferred seg).filter (fun x => decide (x ∉ M)) ≠ [] then
        [⟨SECTION_ID, "Missing times metadata", Status.FAIL,
          "Inferred missing timestamps are not listed in \x27missing_times\x27: "
            ++ toString ((missingInferred seg).filter (fun x => decide (x ∉ M)))
            ++ ". Define these in \x27missing_times\x27 if the data is actually missing."⟩]
       else
        [⟨SECTION_ID, "Missing times metadata", Status.PASS,
          "All inferred missing timestamps are listed in \x27missing_times\x27"⟩]) := by
  have h1 : ¬ seg.length < 2 := by omega
  have h2 : ¬ (diffs seg).length = 0 := by rw [diffs_length]; omega
  simp only [_check_missing_times_regular_period, if_neg h1, if_neg h2,
    missingInferred, gridOf]

theorem irregular_period_mono (pre : List Int) (mv : Option (List Int))
    (h : nonIncreasing (diffs pre) = true) :
    _check_missing_times_irregular_period (some pre) mv = [] := by
  by_cases h1 : pre.length < 2
  · simp only [_check_missing_times_irregular_period, if_pos h1]
  · by_cases h2 : (diffs pre).length < 2
    · simp only [_check_missing_times_irregular_period, if_neg h1, if_pos h2]
    · simp only [_check_missing_times_irregular_period, if_neg h1, if_neg h2, h,
        if_true]

theorem irregular_period_nonmono (pre M : List Int)
    (h : nonIncreasing (diffs pre) = false) :
    _check_missing_times_irregular_period (some pre) (some M) =
      (if missingInferred pre ≠ []
          ∧ M.filter (fun x =>
              decide ((gridOf pre).headD 0 ≤ x ∧ x ≤ (gridOf pre).getLastD 0)) = []
       then [⟨SECTION_ID, "Missing times metadata", Status.WARNING,
         "Irregular timesteps do not monotonically decrease and missing_times are not provided to resolve them"⟩]
       else []) := by
  have hd2 : 2 ≤ (diffs pre).length := length_le_of_nonIncreasing_false h
  have h1 : ¬ pre.length < 2 := by
    have := diffs_length pre
    omega
  have h2 : ¬ (diffs pre).length < 2 := by omega
  simp only [_check_missing_times_irregular_period, if_neg h1, if_neg h2, h,
    Bool.false_eq_true, if_false, missingInferred, gridOf]

theorem metadata_no_cut {ds : Dataset} {t : List Int} {allow : Bool}
    (h : allow = false ∨ ds.consistent_timestep_start = none) :
    _check_missing_times_metadata ds t allow = metadataWithCutover ds t none := by
  cases allow with
  | false => rfl
  | true =>
    rcases h with h | h
    · exact absurd h (by decide)
    · unfold _check_missing_times_metadata
      rw [h]
      rfl

theorem metadata_nocut_nomissing {ds : Dataset} {t : List Int}
    (hmiss : ds.missing_times = none) :
    metadataWithCutover ds t none =
      (if hasFails (_check_missing_times_regular_period t none)
       then _check_missing_times_regular_period t none
       else _check_missing_times_regular_period t none
         ++ [⟨SECTION_ID, "Missing times metadata", Status.PASS,
           "Regular timesteps detected; \x27missing_times\x27 not required"⟩]) := by
  unfold metadataWithCutover splitTimes
  rw [hmiss]
  simp only [List.nil_append]

theorem metadata_overlap {ds : Dataset} {t : List Int} (cut : Option Int)
    (mv : MissingVar) (hmv : ds.missing_times = some mv)
    (hdt : mv.isDatetime = true)
    (hover : t.any (fun x => decide (x ∈ mv.values)) = true) :
    metadataWithCutover ds t cut =
      [⟨SECTION_ID, "Missing times metadata", Status.FAIL,
        "\x27missing_times\x27 values must not appear in the main time coordinate"⟩] := by
  unfold metadataWithCutover
  rw [hmv]
  simp only [hdt, hover, Bool.true_eq_false, if_false, if_true]

/-! ## Claim theorems -/

/-- C6: for every dataset whose time coordinate contains a non-positive
consecutive difference (decreasing or repeated instants), and whose time
coordinate is present, check_temporal_requirements returns a report whose
only record is the FAIL on rule Time coordinate ordering, for every value
of min_years and allow_variable_timestep; the coverage-duration and
missing-times checks never run (nothing else is in the report). -/
theorem C6_ordering_fail (ds : Dataset) (min_years : Int) (allow : Bool)
    (hc : ds.hasTimeCoord = true)
    (hbad : ∃ d ∈ diffs ds.times, d ≤ 0) :
    check_temporal_requirements ds min_years allow =
      [⟨SECTION_ID, "Time coordinate ordering", Status.FAIL,
        "Time coordinate must be strictly increasing"⟩] := by
  obtain ⟨d, hd, hle⟩ := hbad
  have hne : diffs ds.times ≠ [] := by
    intro h
    rw [h] at hd
    exact absurd hd (List.not_mem_nil d)
  have hlen2 : 2 ≤ ds.times.length := by
    have h1 := diffs_length ds.times
    have h2 : 0 < (diffs ds.times).length := List.length_pos.mpr hne
    omega
  have hmono : strictlyIncreasing ds.times = false := by
    simp only [strictlyIncreasing, List.all_eq_false, decide_eq_true_eq]
    exact ⟨d, hd, by omega⟩
  unfold check_temporal_requirements
  rw [if_neg (by simp [hc]), if_pos ⟨hlen2, hmono⟩]

/-- C6 witness: a concrete non-monotonic series yields exactly the
ordering FAIL. -/
def dsW6 : Dataset := ⟨true, [0, 5, 3], none, none⟩

theorem C6_witness :
    check_temporal_requirements dsW6 3 true =
      [⟨SECTION_ID, "Time coordinate ordering", Status.FAIL,
        "Time coordinate must be strictly increasing"⟩] :=
  C6_ordering_fail dsW6 3 true rfl ⟨-2, by decide, by decide⟩

/-- C8: analyze_dataset_timesteps (run fresh, from the empty cache) on a
dataset with fewer than 2 instants returns (false, 0); otherwise it
returns (c above 1, c) where c is the number of distinct positive
consecutive differences of the time coordinate, non-positive differences
being discarded before counting. -/
theorem C8_analyze_spec (ds : DsObj) :
    (ds.times.length < 2 → (analyze_dataset_timesteps [] ds).1 = (false, 0))
    ∧ (2 ≤ ds.times.length →
        (analyze_dataset_timesteps [] ds).1 =
          (decide (1 < distinctPositiveIntervalCount ds.times),
           distinctPositiveIntervalCount ds.times)) := by
  have hget : cacheGet [] ds = none := by
    unfold cacheGet
    cases h : ds.hashable <;> simp [List.find?]
  constructor
  · intro h
    simp [analyze_dataset_timesteps, hget, analyzeTimestepsUncached, if_pos h]
  · intro h
    have hcnt : ((diffs ds.times).filter (fun x => decide (0 < x))).dedup.length
        = distinctPositiveIntervalCount ds.times := by
      rw [distinctPositiveIntervalCount, List.card_toFinset]
    simp only [analyze_dataset_timesteps, hget, analyzeTimestepsUncached,
      if_neg (by omega : ¬ ds.times.length < 2), hcnt]

/-- C8 witness: a concrete series with two distinct positive intervals. -/
def dsW8 : DsObj := ⟨7, true, [0, 1, 3]⟩

theorem C8_witness : (analyze_dataset_timesteps [] dsW8).1 = (true, 2) := by
  have h := (C8_analyze_spec dsW8).2 (by decide)
  rw [h]
  decide

/-- C9: for the same dataset object, a second call to
analyze_dataset_timesteps returns the cached tuple of the first call
without recomputation (the instrumentation flag is false) and that tuple
equals the result of a fresh computation; calling with a dataset that
cannot serve as a cache key skips caching silently (the cache is
unchanged) and still returns the computed result, with no error raised
(the embedded function is total). -/
theorem C9_caching (ds : DsObj) :
    (ds.hashable = true →
      analyze_dataset_timesteps ((analyze_dataset_timesteps [] ds).2.1) ds
        = ((analyze_dataset_timesteps [] ds).1,
           (analyze_dataset_timesteps [] ds).2.1, false)
      ∧ (analyze_dataset_timesteps [] ds).1 = analyzeTimestepsUncached ds.times)
    ∧ (ds.hashable = false → ∀ c : TimestepCache,
        analyze_dataset_timesteps c ds = (analyzeTimestepsUncached ds.times, c, true)) := by
  constructor
  · intro h
    have hget : cacheGet [] ds = none := by
      unfold cacheGet
      simp [List.find?]
    have h1 : analyze_dataset_timesteps [] ds
        = (analyzeTimestepsUncached ds.times,
           [(ds.id, analyzeTimestepsUncached ds.times)], true) := by
      simp [analyze_dataset_timesteps, hget, cachePut, h]
    have hget2 : cacheGet [(ds.id, analyzeTimestepsUncached ds.times)] ds
        = some (analyzeTimestepsUncached ds.times) := by
      simp [cacheGet, h, List.find?]
    rw [h1]
    constructor
    · simp [analyze_dataset_timesteps, hget2]
    · rfl
  · intro h c
    have hget : cacheGet c ds = none := by simp [cacheGet, h]
    simp [analyze_dataset_timesteps, hget, cachePut, h]

/-- C9 witness: concrete hashable dataset object. -/
def dsW9 : DsObj := ⟨3, true, [0, 1, 3]⟩

theorem C9_witness :
    analyze_dataset_timesteps ((analyze_dataset_timesteps [] dsW9).2.1) dsW9
      = ((analyze_dataset_timesteps [] dsW9).1,
         (analyze_dataset_timesteps [] dsW9).2.1, false)
    ∧ (analyze_dataset_timesteps [] dsW9).1 = analyzeTimestepsUncached dsW9.times :=
  (C9_caching dsW9).1 rfl

/-- C5: the consistent_timestep_start attribute is honored (parsed and
used to split the series) only when the policy allows variable timesteps
and the attribute is present; when the policy forbids variable timesteps,
or the attribute is absent, the whole series is one regular segment (the
no-cutover body runs, and the no-cutover split leaves the series whole);
when the attribute is honored but unparseable, the check returns a single
FAIL record and stops. -/
theorem C5_cutover_policy (ds : Dataset) (t : List Int) (allow : Bool) :
    ((allow = false ∨ ds.consistent_timestep_start = none) →
      _check_missing_times_metadata ds t allow = metadataWithCutover ds t none
        ∧ splitTimes t none = (none, t))
    ∧ (∀ v, allow = true → ds.consistent_timestep_start = some (some v) →
        _check_missing_times_metadata ds t allow = metadataWithCutover ds t (some v))
    ∧ (allow = true → ds.consistent_timestep_start = some none →
        _check_missing_times_metadata ds t allow =
          [⟨SECTION_ID, "Missing times metadata", Status.FAIL,
            "Failed to parse \x27consistent_timestep_start\x27"⟩]) := by
  refine ⟨fun h => ⟨metadata_no_cut h, rfl⟩, ?_, ?_⟩
  · intro v ha hs
    subst ha
    unfold _check_missing_times_metadata
    rw [hs]
    rfl
  · intro ha hs
    subst ha
    unfold _check_missing_times_metadata
    rw [hs]
    rfl

/-- C5 witness: an unparseable honored attribute yields the single parse
FAIL record. -/
def dsW5 : Dataset := ⟨true, [0, 1], none, some none⟩

theorem C5_witness :
    _check_missing_times_metadata dsW5 dsW5.times true =
      [⟨SECTION_ID, "Missing times metadata", Status.FAIL,
        "Failed to parse \x27consistent_timestep_start\x27"⟩] :=
  (C5_cutover_policy dsW5 dsW5.times true).2.2 rfl rfl

/-- C4: for every dataset with a datetime-typed missing_times variable
that shares at least one instant with the strictly increasing time
coordinate, the reconciliation emits a single FAIL record and stops, so
no segment reconciliation records follow, for every cutover attribute and
policy flag. -/
theorem C4_overlap_fail (ds : Dataset) (allow : Bool) (mv : MissingVar)
    (hmono : strictlyIncreasing ds.times = true)
    (hmv : ds.missing_times = some mv) (hdt : mv.isDatetime = true)
    (hover : ∃ x ∈ ds.times, x ∈ mv.values) :
    ∃ r : Record, _check_missing_times_metadata ds ds.times allow = [r]
      ∧ r.status = Status.FAIL := by
  have hany : ds.times.any (fun x => decide (x ∈ mv.values)) = true := by
    simp only [List.any_eq_true, decide_eq_true_eq]
    exact hover
  cases ha : allow with
  | false =>
    refine ⟨⟨SECTION_ID, "Missing times metadata", Status.FAIL,
      "\x27missing_times\x27 values must not appear in the main time coordinate"⟩, ?_, rfl⟩
    rw [metadata_no_cut (Or.inl rfl), metadata_overlap none mv hmv hdt hany]
  | true =>
    cases hs : ds.consistent_timestep_start with
    | none =>
      refine ⟨⟨SECTION_ID, "Missing times metadata", Status.FAIL,
        "\x27missing_times\x27 values must not appear in the main time coordinate"⟩, ?_, rfl⟩
      rw [metadata_no_cut (Or.inr hs), metadata_overlap none mv hmv hdt hany]
    | some o =>
      cases o with
      | none =>
        refine ⟨⟨SECTION_ID, "Missing times metadata", Status.FAIL,
          "Failed to parse \x27consistent_timestep_start\x27"⟩, ?_, rfl⟩
        unfold _check_missing_times_metadata
        rw [hs]
        rfl
      | some v =>
        refine ⟨⟨SECTION_ID, "Missing times metadata", Status.FAIL,
          "\x27missing_times\x27 values must not appear in the main time coordinate"⟩, ?_, rfl⟩
        unfold _check_missing_times_metadata
        rw [hs]
        show metadataWithCutover ds ds.times (some v) = _
        rw [metadata_overlap (some v) mv hmv hdt hany]

/-- C4 witness: a concrete overlap between missing_times and the time
coordinate yields a single FAIL. -/
def dsW4 : Dataset := ⟨true, [0, 1, 2], some ⟨true, [1]⟩, none⟩

theorem C4_witness :
    ∃ r : Record, _check_missing_times_metadata dsW4 dsW4.times true = [r]
      ∧ r.status = Status.FAIL :=
  C4_overlap_fail dsW4 true ⟨true, [1]⟩ (by decide) rfl rfl ⟨1, by decide, by decide⟩

/-- C7: for every dataset with a present, strictly increasing time
coordinate, check_temporal_requirements computes the elapsed days between
first and last instants, divides by 365.25, and emits PASS exactly when
the resulting years reach min_years and FAIL otherwise, then continues to
the missing-times checks; the analysis exception arising on an empty
coordinate is caught and converted into a FAIL record containing the
exception text (the embedded function is total, so nothing propagates). -/
theorem C7_coverage (ds : Dataset) (min_years : Int) (allow : Bool)
    (hc : ds.hasTimeCoord = true)
    (hmono : strictlyIncreasing ds.times = true) :
    (ds.times = [] →
      check_temporal_requirements ds min_years allow =
        [⟨SECTION_ID, "Temporal coverage analysis", Status.FAIL,
          "Failed to analyze temporal coverage: index -1 is out of bounds for axis 0 with size 0"⟩])
    ∧ (ds.times ≠ [] →
      ∃ r : Record,
        check_temporal_requirements ds min_years allow =
          r :: _check_missing_times_metadata ds ds.times allow
        ∧ (r.status = Status.PASS ↔ (min_years : ℚ) ≤ coverageYearsOf ds.times)
        ∧ (r.status = Status.PASS ∨ r.status = Status.FAIL)) := by
  have hnotord : ¬ (2 ≤ ds.times.length ∧ strictlyIncreasing ds.times = false) := by
    rintro ⟨-, hfalse⟩
    rw [hmono] at hfalse
    exact absurd hfalse (by decide)
  constructor
  · intro hnil
    unfold check_temporal_requirements
    rw [if_neg (by simp [hc]), if_neg hnotord, hnil]
    rfl
  · intro hne
    have hcov : coverageYears ds.times = Except.ok (coverageYearsOf ds.times) := by
      unfold coverageYears coverageYearsOf
      rw [if_neg (by simpa [List.isEmpty_iff] using hne)]
    unfold check_temporal_requirements
    rw [if_neg (by simp [hc]), if_neg hnotord, hcov]
    by_cases hy : (min_years : ℚ) ≤ coverageYearsOf ds.times
    · refine ⟨⟨SECTION_ID, "Minimum 3-year coverage", Status.PASS,
        "Temporal coverage: " ++ toString (coverageYearsOf ds.times)
          ++ " years (at least " ++ toString min_years ++ " years)"⟩,
        ?_, ?_, Or.inl rfl⟩
      · simp only [if_pos hy]
      · exact ⟨fun _ => hy, fun _ => rfl⟩
    · refine ⟨⟨SECTION_ID, "Minimum 3-year coverage", Status.FAIL,
        "Temporal coverage: " ++ toString (coverageYearsOf ds.times)
          ++ " years (below " ++ toString min_years ++ " years required)"⟩,
        ?_, ?_, Or.inr rfl⟩
      · simp only [if_neg hy]
      · exact ⟨fun h => Status.noConfusion h, fun h => absurd h hy⟩

/-- C7 witness: a concrete two-instant series one day apart passes the
zero-year requirement and the report continues with the missing-times
records. -/
def dsW7 : Dataset := ⟨true, [0, 86400000000000], none, none⟩

theorem C7_witness :
    ∃ r : Record,
      check_temporal_requirements dsW7 0 true =
        r :: _check_missing_times_metadata dsW7 dsW7.times true
      ∧ (r.status = Status.PASS ↔ ((0 : Int) : ℚ) ≤ coverageYearsOf dsW7.times)
      ∧ (r.status = Status.PASS ∨ r.status = Status.FAIL) :=
  (C7_coverage dsW7 0 true rfl (by decide)).2 (by decide)

/-- C2: the regular-segment check with a declared (series-disjoint) missing
set: WARNING and stop below 2 instants; the declared no-determinable-interval
WARNING clause (all diffs non-positive) holds vacuously, since a strictly
increasing segment of length at least 2 always has a positive difference;
otherwise, with missing_inferred the expected grid (first to last instant at
the minimum observed interval) minus the actual instants: PASS when empty,
FAIL naming the unlisted gaps when some inferred instant is not declared,
PASS when every inferred instant is declared. -/
theorem C2_regular_segment (seg M : List Int)
    (hmono : strictlyIncreasing seg = true)
    (hdisj : ∀ x ∈ M, x ∉ seg) :
    (seg.length < 2 →
      _check_missing_times_regular_period seg (some M) =
        [⟨SECTION_ID, "Missing times metadata", Status.WARNING,
          "Not enough regular timestamps to infer missing times"⟩])
    ∧ (2 ≤ seg.length → (∀ d ∈ diffs seg, d ≤ 0) →
      _check_missing_times_regular_period seg (some M) =
        [⟨SECTION_ID, "Missing times metadata", Status.WARNING,
          "Unable to infer timestep from regular timestamps"⟩])
    ∧ (2 ≤ seg.length →
      (missingInferred seg = [] →
        _check_missing_times_regular_period seg (some M) =
          [⟨SECTION_ID, "Missing times metadata", Status.PASS,
            "No missing timestamps inferred in the regular period"⟩])
      ∧ ((∃ m ∈ missingInferred seg, m ∉ M) →
        _check_missing_times_regular_period seg (some M) =
          [⟨SECTION_ID, "Missing times metadata", Status.FAIL,
            "Inferred missing timestamps are not listed in \x27missing_times\x27: "
              ++ toString ((missingInferred seg).filter (fun x => decide (x ∉ M)))
              ++ ". Define these in \x27missing_times\x27 if the data is actually missing."⟩])
      ∧ (missingInferred seg ≠ [] → (∀ m ∈ missingInferred seg, m ∈ M) →
        _check_missing_times_regular_period seg (some M) =
          [⟨SECTION_ID, "Missing times metadata", Status.PASS,
            "All inferred missing timestamps are listed in \x27missing_times\x27"⟩])) := by
  refine ⟨fun h => regular_period_short seg (some M) h, ?_, ?_⟩
  · intro h2 hall
    have hne : diffs seg ≠ [] := by
      have := diffs_length seg
      intro hnil
      rw [hnil] at this
      simp only [List.length_nil] at this
      omega
    obtain ⟨d, hd⟩ := List.exists_mem_of_ne_nil _ hne
    have hpos := strictlyIncreasing_pos hmono d hd
    have := hall d hd
    omega
  · intro h2
    rw [regular_period_some seg M h2]
    refine ⟨fun h => by rw [if_pos h], ?_, ?_⟩
    · rintro ⟨m, hm, hmM⟩
      have hne : missingInferred seg ≠ [] := by
        intro hnil
        rw [hnil] at hm
        exact absurd hm (List.not_mem_nil m)
      rw [if_neg hne, if_pos ?_]
      intro hnil
      have : m ∈ (missingInferred seg).filter (fun x => decide (x ∉ M)) := by
        rw [List.mem_filter]
        exact ⟨hm, by simpa using hmM⟩
      rw [hnil] at this
      exact absurd this (List.not_mem_nil m)
    · intro hne hall
      rw [if_neg hne, if_neg ?_]
      intro hnenil
      apply hnenil
      rw [List.filter_eq_nil_iff]
      intro a ha
      simpa using hall a ha

/-- C2 witness: hourly segment with the 2-hour instant absent and declared
missing, giving the all-listed PASS. -/
theorem C2_witness :
    _check_missing_times_regular_period [0, 1, 3, 4] (some [2]) =
      [⟨SECTION_ID, "Missing times metadata", Status.PASS,
        "All inferred missing timestamps are listed in \x27missing_times\x27"⟩] :=
  ((C2_regular_segment [0, 1, 3, 4] [2] (by decide) (by decide)).2.2
    (by decide)).2.2 (by decide) (by decide)

/-- C10: enlarging the declared missing set never worsens the
regular-segment outcome: if the check with declared set M emits no FAIL,
the check with any superset (still disjoint from the segment) emits no
FAIL; moreover the outcome depends on the declared set only through its
intersection with the inferred gaps, so declared instants matching no
inferred gap are silently ignored and never flagged. -/
theorem C10_superset (seg M Mp : List Int)
    (hsub : ∀ x ∈ M, x ∈ Mp) (hdisj : ∀ x ∈ Mp, x ∉ seg) :
    (hasFails (_check_missing_times_regular_period seg (some M)) = false →
      hasFails (_check_missing_times_regular_period seg (some Mp)) = false)
    ∧ _check_missing_times_regular_period seg (some M) =
        _check_missing_times_regular_period seg
          (some (M.filter (fun x => decide (x ∈ missingInferred seg)))) := by
  by_cases h2 : 2 ≤ seg.length
  case neg =>
    have hshort : seg.length < 2 := by omega
    refine ⟨fun _ => ?_, ?_⟩
    · rw [regular_period_short seg (some Mp) hshort]
      rfl
    · rw [regular_period_short seg (some M) hshort,
        regular_period_short seg _ hshort]
  case pos =>
    have hflt : (missingInferred seg).filter (fun x => decide (x ∉ M))
        = (missingInferred seg).filter (fun x =>
            decide (x ∉ M.filter (fun y => decide (y ∈ missingInferred seg)))) := by
      apply List.filter_congr
      intro x hx
      have hmem : (x ∈ M.filter (fun y => decide (y ∈ missingInferred seg))) ↔ x ∈ M := by
        rw [List.mem_filter]
        exact ⟨fun h => h.1, fun h => ⟨h, by simpa using hx⟩⟩
      rw [decide_eq_decide]
      exact not_congr hmem.symm
    constructor
    · intro hM
      by_cases hinf : missingInferred seg = []
      · rw [regular_period_some seg Mp h2, if_pos hinf]
        rfl
      · rw [regular_period_some seg M h2, if_neg hinf] at hM
        by_cases hu : (missingInferred seg).filter (fun x => decide (x ∉ M)) ≠ []
        · rw [if_pos hu] at hM
          exact absurd hM (by simp [hasFails])
        · have humem : ∀ x ∈ missingInferred seg, x ∈ M := by
            intro x hx
            have := List.filter_eq_nil_iff.mp (not_not.mp hu) x hx
            simpa using this
          have hup : (missingInferred seg).filter (fun x => decide (x ∉ Mp)) = [] :=
            List.filter_eq_nil_iff.mpr
              (fun a ha => by simpa using hsub a (humem a ha))
          rw [regular_period_some seg Mp h2, if_neg hinf,
            if_neg (not_not.mpr hup)]
          rfl
    · rw [regular_period_some seg M h2, regular_period_some seg _ h2, hflt]

/-- C10 witness: declaring an extra instant that matches no inferred gap
keeps the regular-segment check free of FAILs. -/
theorem C10_witness :
    hasFails (_check_missing_times_regular_period [0, 1, 3, 4] (some [2, 9])) = false :=
  (C10_superset [0, 1, 3, 4] [2] [2, 9] (by decide) (by decide)).1 (by decide)

/-- C1 counterexample: the claim as stated is false.  A strictly
increasing series with two distinct positive intervals and no
missing_times variable, together with an honored cutover attribute
(policy allows variable timesteps, consistent_timestep_start = 03:00),
yields a reconciliation report without any FAIL: the cutover splits the
series into a 2-point prefix (too short to check) and a 2-point
single-interval suffix, and the trailing not-required PASS is emitted. -/
def dsC1 : Dataset :=
  ⟨true, [0, 3600000000000, 10800000000000, 14400000000000], none,
    some (some 10800000000000)⟩

theorem C1_counterexample :
    strictlyIncreasing dsC1.times = true
    ∧ 2 ≤ distinctPositiveIntervalCount dsC1.times
    ∧ dsC1.missing_times = none
    ∧ hasFails (_check_missing_times_metadata dsC1 dsC1.times true) = false := by
  refine ⟨by decide, by decide, rfl, by decide⟩

/-- C1 (amended): for every dataset whose time coordinate is strictly
increasing with at least 2 distinct positive consecutive intervals and no
missing_times variable, the missing-times reconciliation produces a report
whose only record is the FAIL for the missing missing_times variable of
the regular period, provided the cutover is not honored (the policy
forbids variable timesteps or the cutover attribute is absent); the FAIL
is emitted by the regular-segment analysis on the whole series. -/
theorem C1_regular_fail (ds : Dataset) (allow : Bool)
    (hmono : strictlyIncreasing ds.times = true)
    (hvar : 2 ≤ distinctPositiveIntervalCount ds.times)
    (hmiss : ds.missing_times = none)
    (hnocut : allow = false ∨ ds.consistent_timestep_start = none) :
    _check_missing_times_metadata ds ds.times allow =
      [⟨SECTION_ID, "Missing times metadata", Status.FAIL,
        "Missing \x27missing_times\x27 variable for regular period"⟩] := by
  have hfeq : (diffs ds.times).filter (fun d => decide (0 < d)) = diffs ds.times :=
    List.filter_eq_self.mpr
      (fun a ha => decide_eq_true (strictlyIncreasing_pos hmono a ha))
  have hded : 2 ≤ (diffs ds.times).dedup.length := by
    rw [distinctPositiveIntervalCount, List.card_toFinset, hfeq] at hvar
    exact hvar
  have hdlen : 2 ≤ (diffs ds.times).length :=
    le_trans hded (List.dedup_sublist _).length_le
  have hlen : 2 ≤ ds.times.length := by
    have := diffs_length ds.times
    omega
  have hgt : 1 < (diffs ds.times).dedup.length := by omega
  rw [metadata_no_cut hnocut, metadata_nocut_nomissing hmiss,
    regular_period_none ds.times hlen, if_pos hgt]
  rw [if_pos (by rfl)]

/-- C1 witness: a concrete variable-interval series with no honored
cutover yields exactly the regular-period FAIL. -/
def dsW1 : Dataset := ⟨true, [0, 1, 3], none, none⟩

theorem C1_witness :
    _check_missing_times_metadata dsW1 dsW1.times true =
      [⟨SECTION_ID, "Missing times metadata", Status.FAIL,
        "Missing \x27missing_times\x27 variable for regular period"⟩] :=
  C1_regular_fail dsW1 true (by decide) (by decide) rfl (Or.inr rfl)

/-- C3 counterexample: the claim as stated is false.  Prefix
[00:00, 01:00, 03:00, 04:00] has non-monotonic differences and an
inferred gap at 02:00; the declared missing set is [00:30], which lies
within the expected-grid span but covers no gap instant.  The claim then
demands a WARNING (the grid has gaps and none of the gap instants are
covered), yet the check emits no record: the source only tests whether
ANY declared value lies within the span, not whether the gaps are
covered. -/
def preC3 : List Int := [0, 3600000000000, 10800000000000, 14400000000000]

def mvC3 : List Int := [1800000000000]

theorem C3_counterexample :
    strictlyIncreasing preC3 = true
    ∧ 2 ≤ preC3.length
    ∧ nonIncreasing (diffs preC3) = false
    ∧ missingInferred preC3 ≠ []
    ∧ (∀ g ∈ missingInferred preC3, g ∉ mvC3)
    ∧ (gridOf preC3).headD 0 ≤ 1800000000000
    ∧ (1800000000000 : Int) ≤ (gridOf preC3).getLastD 0
    ∧ _check_missing_times_irregular_period (some preC3) (some mvC3) = [] := by
  refine ⟨by decide, by decide, by decide, by decide, by decide,
    by decide, by decide, by decide⟩

/-- C3 (amended): when a cutover exists, the irregular prefix has at least
2 points and a missing set is declared: if the prefix differences are
monotonically non-increasing read forward, the check emits no record;
otherwise it emits a WARNING exactly when the expected grid built from the
prefix minimum interval has gaps relative to the actual prefix AND no
declared-missing value at all lies within the grid span (coverage is
judged by the presence of any declared value in the span, not by matching
the gap instants); in this declared-set case it never emits FAIL. -/
theorem C3_irregular_segment (pre M : List Int)
    (hmono : strictlyIncreasing pre = true)
    (hlen : 2 ≤ pre.length) :
    (nonIncreasing (diffs pre) = true →
      _check_missing_times_irregular_period (some pre) (some M) = [])
    ∧ (nonIncreasing (diffs pre) = false →
      _check_missing_times_irregular_period (some pre) (some M) =
        (if missingInferred pre ≠ []
            ∧ M.filter (fun x =>
                decide ((gridOf pre).headD 0 ≤ x ∧ x ≤ (gridOf pre).getLastD 0)) = []
         then [⟨SECTION_ID, "Missing times metadata", Status.WARNING,
           "Irregular timesteps do not monotonically decrease and missing_times are not provided to resolve them"⟩]
         else []))
    ∧ hasFails (_check_missing_times_irregular_period (some pre) (some M)) = false := by
  refine ⟨fun h => irregular_period_mono pre (some M) h,
    fun h => irregular_period_nonmono pre M h, ?_⟩
  cases hni : nonIncreasing (diffs pre) with
  | true => rw [irregular_period_mono pre (some M) hni]; rfl
  | false =>
    rw [irregular_period_nonmono pre M hni]
    by_cases hc : missingInferred pre ≠ []
        ∧ M.filter (fun x =>
            decide ((gridOf pre).headD 0 ≤ x ∧ x ≤ (gridOf pre).getLastD 0)) = []
    · rw [if_pos hc]
      rfl
    · rw [if_neg hc]
      rfl

/-- C3 witness: a monotonically coarsening-to-fine prefix is exempt from
reconciliation and produces no record. -/
theorem C3_witness :
    _check_missing_times_irregular_period (some [0, 2, 3]) (some []) = [] :=
  (C3_irregular_segment [0, 2, 3] [] (by decide) (by decide)).1 (by decide)
